import Mathlib

/-! Shallow embedding of the go-micro order-creation core: the pkg/errors
taxonomy, the Order and User domain entities with their validators, and the
order use case (CreateOrder / GetOrder) with its collaborators made explicit.
Time values are modelled as Nat ticks, float64 totals as rationals, and the
observable collaborator calls of a use-case run are returned as a trace. -/

namespace GoMicro

/-- Single-quote character, used by the not-found error message format. -/
def squote : String := String.singleton (Char.ofNat 39)

/-- Go interface values that appear in error details and ids. -/
inductive GoVal where
  | natV (n : Nat)
  | strV (s : String)
deriving DecidableEq, Repr

/-- Rendering of a Go value by fmt with the %v verb. -/
def GoVal.render : GoVal → String
  | .natV n => Nat.repr n
  | .strV s => s

/-- Structured details attached to an AppError: either a bare string or a
string-keyed map (the two shapes this codebase constructs). -/
inductive Details where
  | str (s : String)
  | map (entries : List (String × GoVal))
deriving DecidableEq, Repr

/-- pkg/errors code constant CodeValidation. -/
def CodeValidation : String := "VALIDATION_ERROR"

/-- pkg/errors code constant CodeNotFound. -/
def CodeNotFound : String := "NOT_FOUND"

/-- pkg/errors code constant CodeConflict. -/
def CodeConflict : String := "CONFLICT"

/-- pkg/errors code constant CodeInternal. -/
def CodeInternal : String := "INTERNAL_ERROR"

/-- pkg/errors code constant CodeUnauthorized. -/
def CodeUnauthorized : String := "UNAUTHORIZED"

/-- pkg/errors code constant CodeForbidden. -/
def CodeForbidden : String := "FORBIDDEN"

/-- gRPC status codes (google.golang.org/grpc/codes) referenced by pkg/errors. -/
inductive GRPCCode where
  | ok
  | cancelled
  | unknown
  | invalidArgument
  | deadlineExceeded
  | notFound
  | alreadyExists
  | permissionDenied
  | unauthenticated
  | internal
  | unavailable
deriving DecidableEq, Repr

/-- Go error values flowing through the core: appE models a *pkg/errors.AppError
(code, message, details, wrapped cause), statusE a gRPC transport status error
(status.Error), otherE any other plain error. -/
inductive GoError where
  | appE (code message : String) (details : Option Details) (err : Option GoError)
  | statusE (code : GRPCCode) (message : String)
  | otherE (message : String)

/-- errors.As with an *AppError target: succeeds exactly on AppError values
(neither status errors nor plain errors in this codebase unwrap to an AppError). -/
def GoError.asApp : GoError → Option (String × String × Option Details × Option GoError)
  | .appE c m d w => some (c, m, d, w)
  | _ => none

/-- errors.NewValidation. -/
def NewValidation (message : String) (details : Option Details) : GoError :=
  .appE CodeValidation message details none

/-- errors.NewNotFound: message is formatted by fmt.Sprintf from the resource
name and the %v rendering of the id. -/
def NewNotFound (resource : String) (id : GoVal) : GoError :=
  .appE CodeNotFound
    (resource ++ " with id " ++ squote ++ id.render ++ squote ++ " not found")
    none none

/-- errors.NewConflict. -/
def NewConflict (message : String) : GoError :=
  .appE CodeConflict message none none

/-- errors.NewInternal. -/
def NewInternal (message : String) (err : Option GoError) : GoError :=
  .appE CodeInternal message none err

/-- errors.NewUnauthorized. -/
def NewUnauthorized (message : String) : GoError :=
  .appE CodeUnauthorized message none none

/-- errors.HTTPStatus. -/
def HTTPStatus (err : GoError) : Nat :=
  match err.asApp with
  | none => 500
  | some (c, _, _, _) =>
    if c = CodeValidation then 400
    else if c = CodeNotFound then 404
    else if c = CodeConflict then 409
    else if c = CodeUnauthorized then 401
    else if c = CodeForbidden then 403
    else 500

/-- The kind-to-gRPC-code switch inside errors.GRPCStatus. -/
def grpcCodeOf (c : String) : GRPCCode :=
  if c = CodeValidation then .invalidArgument
  else if c = CodeNotFound then .notFound
  else if c = CodeConflict then .alreadyExists
  else if c = CodeUnauthorized then .unauthenticated
  else if c = CodeForbidden then .permissionDenied
  else .internal

/-- errors.GRPCStatus: yields the status.Error value sent over the wire. -/
def GRPCStatus (err : GoError) : GoError :=
  match err.asApp with
  | none => .statusE .internal "internal error"
  | some (c, m, _, _) => .statusE (grpcCodeOf c) m

/-- status.FromError: recovers code and message from a transport status error;
fails (ok = false) on every other error value. -/
def statusFromError : GoError → Option (GRPCCode × String)
  | .statusE c m => some (c, m)
  | _ => none

/-- The gRPC-code-to-kind switch inside errors.FromGRPCStatus. -/
def codeFromGRPC : GRPCCode → String
  | .invalidArgument => CodeValidation
  | .notFound => CodeNotFound
  | .alreadyExists => CodeConflict
  | .unauthenticated => CodeUnauthorized
  | .permissionDenied => CodeForbidden
  | _ => CodeInternal

/-- errors.FromGRPCStatus. -/
def FromGRPCStatus (err : GoError) : GoError :=
  match statusFromError err with
  | none => NewInternal "unknown error" (some err)
  | some (c, m) => .appE (codeFromGRPC c) m none (some err)

/-- errors.Is: kind-equality test. -/
def Is (err : GoError) (code : String) : Bool :=
  match err.asApp with
  | some (c, _, _, _) => c == code
  | none => false

/-- errors.Wrap: re-contextualizes an error by prefixing the message. -/
def Wrap (err : GoError) (message : String) : GoError :=
  match err.asApp with
  | some (c, m, d, _) => .appE c (message ++ ": " ++ m) d (some err)
  | none => NewInternal message (some err)

/-- Order status enumeration (internal/orders/domain/entity.go). -/
inductive OrderStatus where
  | pending
  | confirmed
  | cancelled
deriving DecidableEq, Repr

/-- The Order domain entity. -/
structure Order where
  id : Nat
  userID : Nat
  total : Rat
  status : OrderStatus
  createdAt : Nat
  updatedAt : Nat
deriving DecidableEq, Repr

/-- internal/orders/domain ErrUserIDRequired. -/
def ErrUserIDRequired : GoError := NewValidation "user_id is required" none

/-- internal/orders/domain ErrInvalidTotal. -/
def ErrInvalidTotal : GoError := NewValidation "total must be greater than 0" none

/-- internal/orders/domain ErrTotalTooHigh. -/
def ErrTotalTooHigh : GoError := NewValidation "total cannot exceed 1,000,000" none

/-- domain.NewOrderNotFound. -/
def NewOrderNotFound (id : Nat) : GoError := NewNotFound "order" (.natV id)

/-- domain.NewUserNotFoundError: Validation error with a user_id detail map. -/
def NewUserNotFoundError (userID : Nat) : GoError :=
  NewValidation "user not found" (some (.map [("user_id", .natV userID)]))

/-- Order.Validate. -/
def Order.Validate (o : Order) : Option GoError :=
  if o.userID = 0 then some ErrUserIDRequired
  else if o.total ≤ 0 then some ErrInvalidTotal
  else if o.total > 1000000 then some ErrTotalTooHigh
  else none

/-- domain.NewOrder; the two time.Now() calls are modelled by the explicit
now argument, and the store-assigned id starts at its zero value. -/
def NewOrder (now : Nat) (userID : Nat) (total : Rat) : Except GoError Order :=
  let order : Order :=
    { id := 0, userID := userID, total := total, status := .pending
      createdAt := now, updatedAt := now }
  match order.Validate with
  | some e => .error e
  | none => .ok order

/-- Order.Confirm. -/
def Order.Confirm (o : Order) (now : Nat) : Order :=
  { o with status := .confirmed, updatedAt := now }

/-- Order.Cancel. -/
def Order.Cancel (o : Order) (now : Nat) : Order :=
  { o with status := .cancelled, updatedAt := now }

/-- The User domain entity (internal/users/domain). -/
structure User where
  id : Nat
  name : String
  email : String
  createdAt : Nat
  updatedAt : Nat
deriving DecidableEq, Repr

/-- internal/users/domain ErrNameRequired. -/
def ErrNameRequired : GoError := NewValidation "name is required" none

/-- internal/users/domain ErrNameLength. -/
def ErrNameLength : GoError := NewValidation "name must be between 2 and 100 characters" none

/-- internal/users/domain ErrEmailRequired. -/
def ErrEmailRequired : GoError := NewValidation "email is required" none

/-- internal/users/domain ErrEmailInvalid. -/
def ErrEmailInvalid : GoError := NewValidation "email format is invalid" none

/-- internal/users/domain ErrEmailExists. -/
def ErrEmailExists : GoError := NewConflict "email already exists"

/-- domain.NewUserNotFound. -/
def NewUserNotFound (id : Nat) : GoError := NewNotFound "user" (.natV id)

/-- Character class [a-zA-Z0-9._%+-], the local part of EmailRegex
(Char.isAlphanum is ASCII-only, matching the regex classes). -/
def isLocalChar (c : Char) : Bool :=
  c.isAlphanum || c == '.' || c == '_' || c == '%' || c == '+' || c == '-'

/-- Character class [a-zA-Z0-9.-], the domain part of EmailRegex. -/
def isDomainChar (c : Char) : Bool :=
  c.isAlphanum || c == '.' || c == '-'

/-- Split a list at the first occurrence of c: returns the parts strictly
before and after it, or none when c does not occur. -/
def splitFirst (c : Char) : List Char → Option (List Char × List Char)
  | [] => none
  | x :: xs =>
    if x = c then some ([], xs)
    else
      match splitFirst c xs with
      | none => none
      | some (l, r) => some (x :: l, r)

/-- Split a list at the last occurrence of c. -/
def splitLast (c : Char) (xs : List Char) : Option (List Char × List Char) :=
  match splitFirst c xs.reverse with
  | none => none
  | some (t, d) => some (d.reverse, t.reverse)

/-- Matcher for the anchored regex tail after the at sign: a nonempty run of
domain characters, a literal dot, then two or more letters. Because the
letters class contains no dot, a successful match always splits at the last
dot of the input. -/
def matchDomain (r : List Char) : Bool :=
  match splitLast '.' r with
  | none => false
  | some (d, t) => !d.isEmpty && d.all isDomainChar && decide (2 ≤ t.length) && t.all Char.isAlpha

/-- Executable matcher for domain.EmailRegex. Because the local-part class
contains no at sign, a match always splits at the first at sign. The lemma
emailMatch_iff_spec below proves this matcher equivalent to the declarative
reading of the regex. -/
def emailMatch (s : String) : Bool :=
  match splitFirst '@' s.toList with
  | none => false
  | some (l, r) => !l.isEmpty && l.all isLocalChar && matchDomain r

/-- Declarative reading of EmailRegex as the concatenation of its five pieces:
a nonempty local part, the at sign, a nonempty domain part, a dot, and a
two-or-more-letter final label, spanning the whole string. -/
def emailRegexSpec (s : String) : Prop :=
  ∃ l d t : List Char,
    s.toList = l ++ '@' :: (d ++ '.' :: t) ∧
    l ≠ [] ∧ l.all isLocalChar = true ∧
    d ≠ [] ∧ d.all isDomainChar = true ∧
    2 ≤ t.length ∧ t.all Char.isAlpha = true

/-- User.Validate; Go len() on a string is its byte length. -/
def User.Validate (u : User) : Option GoError :=
  if u.name = "" then some ErrNameRequired
  else if u.name.utf8ByteSize < 2 ∨ 100 < u.name.utf8ByteSize then some ErrNameLength
  else if u.email = "" then some ErrEmailRequired
  else if emailMatch u.email = false then some ErrEmailInvalid
  else none

/-- domain.NewUser. -/
def NewUser (now : Nat) (name email : String) : Except GoError User :=
  let user : User := { id := 0, name := name, email := email, createdAt := now, updatedAt := now }
  match user.Validate with
  | some e => .error e
  | none => .ok user

/-- UserInfo returned by the remote user lookup client (orders/ports). -/
structure UserInfo where
  id : Nat
  name : String
  email : String
deriving DecidableEq, Repr

/-- The collaborators injected into OrderUseCase. A nil userClient or
publisher is modelled by none. repoCreate returns the order as mutated by the
store (id and timestamps assigned) or the storage error; the publisher returns
nil (none) on success or the publish error. -/
structure OrdersEnv where
  userClient : Option (Nat → Except GoError UserInfo)
  repoCreate : Order → Except GoError Order
  repoGetByID : Nat → Except GoError Order
  publisher : Option (Order → Option GoError)

/-- application.CreateOrderInput. -/
structure CreateOrderInput where
  userID : Nat
  total : Rat
deriving DecidableEq, Repr

/-- Observable collaborator calls made during a use-case run. The publish
effect records the order passed to PublishOrderCreated together with the
error it returned (none when it succeeded). -/
inductive Effect where
  | getUser (userID : Nat)
  | repoCreate (order : Order)
  | publishOrderCreated (order : Order) (publishErr : Option GoError)

/-- Steps 2 to 4 of OrderUseCase.CreateOrder, after the user lookup: domain
construction with validation, repository create, then best-effort publish
whose outcome is logged (recorded in the trace) and discarded. -/
def createOrderCore (env : OrdersEnv) (now : Nat) (input : CreateOrderInput)
    (effs : List Effect) : Except GoError Order × List Effect :=
  match NewOrder now input.userID input.total with
  | .error e => (.error e, effs)
  | .ok order =>
    match env.repoCreate order with
    | .error e => (.error (NewInternal "failed to create order" (some e)), effs ++ [.repoCreate order])
    | .ok created =>
      match env.publisher with
      | none => (.ok created, effs ++ [.repoCreate order])
      | some pub =>
        (.ok created, effs ++ [.repoCreate order, .publishOrderCreated created (pub created)])

/-- OrderUseCase.CreateOrder: validate the user remotely when a client is
configured, then construct, persist and announce the order. Returns the
result together with the trace of collaborator calls. -/
def createOrder (env : OrdersEnv) (now : Nat) (input : CreateOrderInput) :
    Except GoError Order × List Effect :=
  match env.userClient with
  | none => createOrderCore env now input []
  | some getUser =>
    match getUser input.userID with
    | .error err =>
      if Is err CodeNotFound then
        (.error (NewUserNotFoundError input.userID), [.getUser input.userID])
      else
        (.error (Wrap err "failed to validate user"), [.getUser input.userID])
    | .ok _ => createOrderCore env now input [.getUser input.userID]

/-- OrderUseCase.GetOrder: a direct passthrough to the repository GetByID. -/
def getOrder (env : OrdersEnv) (id : Nat) : Except GoError Order :=
  match env.repoGetByID id with
  | .error e => .error e
  | .ok o => .ok o

/-- PostgresOrderRepository.GetByID over an abstract row store: a missing row
(gorm.ErrRecordNotFound) becomes domain.NewOrderNotFound. -/
def postgresGetByID (store : Nat → Option Order) (id : Nat) : Except GoError Order :=
  match store id with
  | none => .error (NewOrderNotFound id)
  | some o => .ok o

/-- An always-empty order store, for concrete runs. -/
def testStoreEmpty : Nat → Option Order := fun _ => none

/-- The mock repository create of the use-case tests: assigns id 1. -/
def rcAssign : Order → Except GoError Order := fun o => .ok { o with id := 1 }

/-- A publisher that always fails, exercising the best-effort publish path. -/
def pubFail : Order → Option GoError := fun _ =>
  some (NewInternal "failed to publish" none)

/-- The mock user client of the use-case tests: only user 1 exists; every
other id yields the not-found error. -/
def mockUsers : Nat → Except GoError UserInfo := fun uid =>
  if uid = 1 then .ok { id := 1, name := "John Doe", email := "john@example.com" }
  else .error (NewNotFound "user" (.natV uid))

/-- A user client failing with a Conflict taxonomy error. -/
def conflictClient : Nat → Except GoError UserInfo := fun _ =>
  .error (NewConflict "user service conflict")

/-- Environment with no user client and no publisher. -/
def envNoClient : OrdersEnv :=
  { userClient := none, repoCreate := rcAssign
    repoGetByID := postgresGetByID testStoreEmpty, publisher := none }

/-- Environment with the mock user client configured. -/
def envMockClient : OrdersEnv := { envNoClient with userClient := some mockUsers }

/-- Environment whose user client fails with a Conflict error. -/
def envConflictClient : OrdersEnv := { envNoClient with userClient := some conflictClient }

/-! Helper lemmas about the splitting functions and the email matcher. -/

theorem splitFirst_eq_some (c : Char) :
    ∀ (xs l r : List Char), splitFirst c xs = some (l, r) → xs = l ++ c :: r ∧ c ∉ l := by
  intro xs
  induction xs with
  | nil => intro l r h; simp [splitFirst] at h
  | cons x xs ih =>
    intro l r h
    by_cases hx : x = c
    · subst hx
      simp [splitFirst] at h
      obtain ⟨hl, hr⟩ := h
      subst hl; subst hr
      simp
    · simp only [splitFirst, if_neg hx] at h
      cases hsf : splitFirst c xs with
      | none => rw [hsf] at h; simp at h
      | some p =>
        obtain ⟨l1, r1⟩ := p
        rw [hsf] at h
        simp only [Option.some.injEq, Prod.mk.injEq] at h
        obtain ⟨hl, hr⟩ := h
        obtain ⟨h1, h2⟩ := ih l1 r1 hsf
        subst hl; subst hr
        refine ⟨by simp [h1], ?_⟩
        intro hmem
        rcases List.mem_cons.mp hmem with hc | hc
        · exact hx hc.symm
        · exact h2 hc

theorem splitFirst_append (c : Char) :
    ∀ (l r : List Char), c ∉ l → splitFirst c (l ++ c :: r) = some (l, r) := by
  intro l
  induction l with
  | nil => intro r _; simp [splitFirst]
  | cons x xs ih =>
    intro r hmem
    have hx : ¬ x = c := fun h => hmem (by simp [h])
    have hxs : c ∉ xs := fun h => hmem (List.mem_cons_of_mem _ h)
    simp only [List.cons_append, splitFirst, if_neg hx, List.append_eq, ih r hxs]

theorem splitLast_eq_some (c : Char) (xs d t : List Char)
    (h : splitLast c xs = some (d, t)) : xs = d ++ c :: t ∧ c ∉ t := by
  unfold splitLast at h
  cases hsf : splitFirst c xs.reverse with
  | none => rw [hsf] at h; simp at h
  | some p =>
    obtain ⟨p1, p2⟩ := p
    rw [hsf] at h
    simp only [Option.some.injEq, Prod.mk.injEq] at h
    obtain ⟨hd, ht⟩ := h
    obtain ⟨h1, h2⟩ := splitFirst_eq_some c _ _ _ hsf
    subst hd; subst ht
    constructor
    · have h3 := congrArg List.reverse h1
      simp only [List.reverse_reverse, List.reverse_append, List.reverse_cons,
        List.append_assoc, List.singleton_append] at h3
      exact h3
    · simpa using h2

theorem splitLast_append (c : Char) (d t : List Char) (h : c ∉ t) :
    splitLast c (d ++ c :: t) = some (d, t) := by
  unfold splitLast
  have hrev : (d ++ c :: t).reverse = t.reverse ++ c :: d.reverse := by
    simp [List.reverse_append, List.reverse_cons, List.append_assoc]
  rw [hrev, splitFirst_append c t.reverse d.reverse (by simpa using h)]
  simp

theorem emailMatch_iff_spec (s : String) : emailMatch s = true ↔ emailRegexSpec s := by
  constructor
  · intro h
    unfold emailMatch at h
    cases hsf : splitFirst '@' s.toList with
    | none => rw [hsf] at h; simp at h
    | some p =>
      obtain ⟨l, r⟩ := p
      rw [hsf] at h
      simp only [Bool.and_eq_true] at h
      obtain ⟨⟨hl1, hl2⟩, hdom⟩ := h
      unfold matchDomain at hdom
      cases hsl : splitLast '.' r with
      | none => rw [hsl] at hdom; simp at hdom
      | some q =>
        obtain ⟨d, t⟩ := q
        rw [hsl] at hdom
        simp only [Bool.and_eq_true, decide_eq_true_eq] at hdom
        obtain ⟨⟨⟨hd1, hd2⟩, hlen⟩, htl⟩ := hdom
        obtain ⟨hr1, _⟩ := splitLast_eq_some '.' r d t hsl
        obtain ⟨hs1, _⟩ := splitFirst_eq_some '@' s.toList l r hsf
        refine ⟨l, d, t, ?_, ?_, hl2, ?_, hd2, hlen, htl⟩
        · rw [hs1, hr1]
        · intro hnil; rw [hnil] at hl1; simp at hl1
        · intro hnil; rw [hnil] at hd1; simp at hd1
  · rintro ⟨l, d, t, hs, hl1, hl2, hd1, hd2, hlen, htl⟩
    have hatl : '@' ∉ l := by
      intro hmem
      have hval := List.all_eq_true.mp hl2 _ hmem
      exact absurd hval (by decide)
    have hdot : '.' ∉ t := by
      intro hmem
      have hval := List.all_eq_true.mp htl _ hmem
      exact absurd hval (by decide)
    unfold emailMatch
    rw [hs, splitFirst_append '@' l _ hatl]
    show (!l.isEmpty && l.all isLocalChar && matchDomain (d ++ '.' :: t)) = true
    unfold matchDomain
    rw [splitLast_append '.' d t hdot]
    simp [List.isEmpty_iff, hl1, hl2, hd1, hd2, hlen, htl]

theorem emailMatch_at_mem (s : String) (h : emailMatch s = true) : '@' ∈ s.toList := by
  obtain ⟨l, d, t, hs, _⟩ := (emailMatch_iff_spec s).mp h
  rw [hs]
  simp

theorem emailMatch_lastLabel (s : String) (h : emailMatch s = true) :
    ∃ pre t, splitLast '.' s.toList = some (pre, t) ∧
      2 ≤ t.length ∧ t.all Char.isAlpha = true := by
  obtain ⟨l, d, t, hs, _, _, _, _, hlen, htl⟩ := (emailMatch_iff_spec s).mp h
  have hdot : '.' ∉ t := by
    intro hmem
    have hval := List.all_eq_true.mp htl _ hmem
    exact absurd hval (by decide)
  refine ⟨l ++ '@' :: d, t, ?_, hlen, htl⟩
  rw [hs]
  have hassoc : l ++ '@' :: (d ++ '.' :: t) = (l ++ '@' :: d) ++ '.' :: t := by
    simp [List.append_assoc]
  rw [hassoc, splitLast_append '.' (l ++ '@' :: d) t hdot]

theorem NewOrder_invalid_total (now userID : Nat) (total : Rat)
    (h0 : userID ≠ 0) (h1 : total ≤ 0) :
    NewOrder now userID total = .error ErrInvalidTotal := by
  unfold NewOrder Order.Validate
  simp [h0, h1]

/-! Claim theorems. -/

/-- C3: Order.Validate fails with a Validation error exactly when the user id
is zero (message "user_id is required"), the total is at most 0 (message
"total must be greater than 0"), or the total exceeds 1,000,000 (message
"total cannot exceed 1,000,000"), checked in that order with the first
failing check short-circuiting; for a nonzero user id and any total in
the half-open interval (0, 1000000], validation succeeds. -/
theorem C3_order_validate (o : Order) :
    (o.userID = 0 → o.Validate = some (NewValidation "user_id is required" none)) ∧
    (o.userID ≠ 0 → o.total ≤ 0 →
      o.Validate = some (NewValidation "total must be greater than 0" none)) ∧
    (o.userID ≠ 0 → 0 < o.total → 1000000 < o.total →
      o.Validate = some (NewValidation "total cannot exceed 1,000,000" none)) ∧
    (o.Validate = none ↔ o.userID ≠ 0 ∧ 0 < o.total ∧ o.total ≤ 1000000) ∧
    (∀ e, o.Validate = some e → Is e CodeValidation = true) := by
  refine ⟨?_, ?_, ?_, ?_, ?_⟩
  · intro h
    unfold Order.Validate
    rw [if_pos h]; rfl
  · intro h1 h2
    unfold Order.Validate
    rw [if_neg h1, if_pos h2]; rfl
  · intro h1 h2 h3
    unfold Order.Validate
    rw [if_neg h1, if_neg (not_le.mpr h2), if_pos h3]; rfl
  · unfold Order.Validate
    split_ifs with h1 h2 h3
    · simp [h1]
    · constructor
      · intro hc; simp at hc
      · rintro ⟨_, hb, _⟩; exact absurd h2 (not_le.mpr hb)
    · constructor
      · intro hc; simp at hc
      · rintro ⟨_, _, hc⟩; exact absurd h3 (not_lt.mpr hc)
    · have hb : 0 < o.total := not_le.mp h2
      have hc : o.total ≤ 1000000 := not_lt.mp h3
      simp [h1, hb, hc]
  · intro e he
    unfold Order.Validate at he
    split_ifs at he <;> cases he <;> rfl

/-- C3 witness: the order with user id 1 and total 100 validates, the order
with total -10 fails the lower bound, and the zero user id fails first. -/
theorem C3_order_validate_witness :
    Order.Validate ⟨0, 1, 100, .pending, 0, 0⟩ = none ∧
    Order.Validate ⟨0, 1, -10, .pending, 0, 0⟩ =
      some (NewValidation "total must be greater than 0" none) ∧
    Order.Validate ⟨0, 0, -10, .pending, 0, 0⟩ =
      some (NewValidation "user_id is required" none) := by
  refine ⟨?_, ?_, ?_⟩
  · exact ((C3_order_validate ⟨0, 1, 100, .pending, 0, 0⟩).2.2.2.1).mpr
      ⟨by decide, by norm_num, by norm_num⟩
  · exact (C3_order_validate ⟨0, 1, -10, .pending, 0, 0⟩).2.1 (by decide) (by norm_num)
  · exact (C3_order_validate ⟨0, 0, -10, .pending, 0, 0⟩).1 rfl

/-- C4: User.Validate fails with a Validation error exactly when the name is
empty, the name byte length is outside [2, 100], the email is empty, or the
email fails the EmailRegex match, checked in that order with the first
failure short-circuiting; and every string without an at sign, or whose
final dot-separated label is not two or more letters, fails the email check. -/
theorem C4_user_validate (u : User) :
    (u.name = "" → u.Validate = some (NewValidation "name is required" none)) ∧
    (u.name ≠ "" → (u.name.utf8ByteSize < 2 ∨ 100 < u.name.utf8ByteSize) →
      u.Validate = some (NewValidation "name must be between 2 and 100 characters" none)) ∧
    (u.name ≠ "" → 2 ≤ u.name.utf8ByteSize → u.name.utf8ByteSize ≤ 100 → u.email = "" →
      u.Validate = some (NewValidation "email is required" none)) ∧
    (u.name ≠ "" → 2 ≤ u.name.utf8ByteSize → u.name.utf8ByteSize ≤ 100 → u.email ≠ "" →
      emailMatch u.email = false →
      u.Validate = some (NewValidation "email format is invalid" none)) ∧
    (u.Validate = none ↔ (u.name ≠ "" ∧ 2 ≤ u.name.utf8ByteSize ∧ u.name.utf8ByteSize ≤ 100 ∧
      u.email ≠ "" ∧ emailMatch u.email = true)) ∧
    (∀ e, u.Validate = some e → Is e CodeValidation = true) ∧
    ('@' ∉ u.email.toList → emailMatch u.email = false) ∧
    (splitLast '.' u.email.toList = none → emailMatch u.email = false) ∧
    (∀ pre t, splitLast '.' u.email.toList = some (pre, t) →
      (t.length < 2 ∨ t.all Char.isAlpha = false) → emailMatch u.email = false) := by
  refine ⟨?_, ?_, ?_, ?_, ?_, ?_, ?_, ?_, ?_⟩
  · intro h
    unfold User.Validate
    rw [if_pos h]; rfl
  · intro h1 h2
    unfold User.Validate
    rw [if_neg h1, if_pos h2]; rfl
  · intro h1 h2 h3 h4
    have hlen : ¬ (u.name.utf8ByteSize < 2 ∨ 100 < u.name.utf8ByteSize) := by
      push_neg; exact ⟨h2, h3⟩
    unfold User.Validate
    rw [if_neg h1, if_neg hlen, if_pos h4]; rfl
  · intro h1 h2 h3 h4 h5
    have hlen : ¬ (u.name.utf8ByteSize < 2 ∨ 100 < u.name.utf8ByteSize) := by
      push_neg; exact ⟨h2, h3⟩
    unfold User.Validate
    rw [if_neg h1, if_neg hlen, if_neg h4, if_pos h5]; rfl
  · unfold User.Validate
    split_ifs with h1 h2 h3 h4
    · simp [h1]
    · constructor
      · intro hc; simp at hc
      · rintro ⟨_, hb, hc, _⟩
        rcases h2 with h2 | h2
        · exact absurd hb (not_le.mpr h2)
        · exact absurd hc (not_le.mpr h2)
    · constructor
      · intro hc; simp at hc
      · rintro ⟨_, _, _, hd, _⟩; exact hd h3
    · constructor
      · intro hc; simp at hc
      · rintro ⟨_, _, _, _, he⟩; rw [he] at h4; exact Bool.noConfusion h4
    · push_neg at h2
      have h5 : emailMatch u.email = true := by
        cases hm : emailMatch u.email
        · exact absurd hm h4
        · rfl
      simp [h1, h2.1, h2.2, h3, h5]
  · intro e he
    unfold User.Validate at he
    split_ifs at he <;> cases he <;> rfl
  · intro hat
    cases hm : emailMatch u.email
    · rfl
    · exact absurd (emailMatch_at_mem _ hm) hat
  · intro hnone
    cases hm : emailMatch u.email
    · rfl
    · obtain ⟨pre, t, hsl, _, _⟩ := emailMatch_lastLabel _ hm
      rw [hsl] at hnone
      exact Option.noConfusion hnone
  · intro pre t hsl hbad
    cases hm : emailMatch u.email
    · rfl
    · exfalso
      obtain ⟨pre2, t2, hsl2, hlen2, halpha2⟩ := emailMatch_lastLabel _ hm
      rw [hsl] at hsl2
      injection hsl2 with hpair
      injection hpair with hpre ht
      subst ht
      rcases hbad with hb | hb
      · omega
      · rw [halpha2] at hb
        exact Bool.noConfusion hb

/-- C4 witness: a well-formed user validates; a user whose email has no at
sign fails the pattern check with the email-format error. -/
theorem C4_user_validate_witness :
    User.Validate ⟨0, "John Doe", "john@example.com", 0, 0⟩ = none ∧
    User.Validate ⟨0, "John Doe", "invalid-email", 0, 0⟩ =
      some (NewValidation "email format is invalid" none) := by
  constructor
  · exact ((C4_user_validate ⟨0, "John Doe", "john@example.com", 0, 0⟩).2.2.2.2.1).mpr
      ⟨by decide, by decide, by decide, by decide, by decide⟩
  · have hfail := (C4_user_validate ⟨0, "John Doe", "invalid-email", 0, 0⟩).2.2.2.2.2.2.1
      (by decide)
    exact (C4_user_validate ⟨0, "John Doe", "invalid-email", 0, 0⟩).2.2.2.1
      (by decide) (by decide) (by decide) (by decide) hfail

/-- C5: the HTTP status mapping returns 400 for Validation, 404 for NotFound,
409 for Conflict, 401 for Unauthorized, 403 for Forbidden, and 500 for
Internal, for AppErrors with any code outside the taxonomy, and for every
error that is not an AppError at all. -/
theorem C5_http_status (m : String) (d : Option Details) (w : Option GoError) :
    HTTPStatus (.appE CodeValidation m d w) = 400 ∧
    HTTPStatus (.appE CodeNotFound m d w) = 404 ∧
    HTTPStatus (.appE CodeConflict m d w) = 409 ∧
    HTTPStatus (.appE CodeUnauthorized m d w) = 401 ∧
    HTTPStatus (.appE CodeForbidden m d w) = 403 ∧
    HTTPStatus (.appE CodeInternal m d w) = 500 ∧
    (∀ c : String,
      c ∉ [CodeValidation, CodeNotFound, CodeConflict, CodeUnauthorized, CodeForbidden] →
      HTTPStatus (.appE c m d w) = 500) ∧
    (∀ e : GoError, e.asApp = none → HTTPStatus e = 500) := by
  refine ⟨rfl, rfl, rfl, rfl, rfl, rfl, ?_, ?_⟩
  · intro c hc
    simp only [List.mem_cons, List.not_mem_nil, or_false, not_or] at hc
    obtain ⟨h1, h2, h3, h4, h5⟩ := hc
    simp [HTTPStatus, GoError.asApp, h1, h2, h3, h4, h5]
  · intro e he
    unfold HTTPStatus
    rw [he]

/-- C5 witness: an AppError whose code lies outside the taxonomy maps to 500,
as does a bare transport error. -/
theorem C5_http_status_witness :
    HTTPStatus (.appE "SOMETHING_ELSE" "boom" none none) = 500 ∧
    HTTPStatus (.otherE "boom") = 500 := by
  constructor
  · exact (C5_http_status "boom" none none).2.2.2.2.2.2.1 "SOMETHING_ELSE" (by decide)
  · exact (C5_http_status "boom" none none).2.2.2.2.2.2.2 (.otherE "boom") rfl

/-- C6: translating a transport error back into the taxonomy inverts the
kind-to-RPC-status table: for each of the six kinds, FromGRPCStatus after
GRPCStatus restores the same kind (keeping the message and chaining the
transport error as cause); a transport status whose code lies outside the
table becomes Internal with the original text kept as the message and the
original error kept as the wrapped cause. -/
theorem C6_grpc_roundtrip (m : String) (d : Option Details) (w : Option GoError) :
    (∀ c : String,
      c ∈ [CodeValidation, CodeNotFound, CodeConflict, CodeUnauthorized, CodeForbidden,
        CodeInternal] →
      FromGRPCStatus (GRPCStatus (.appE c m d w)) =
        .appE c m none (some (.statusE (grpcCodeOf c) m))) ∧
    (∀ gc : GRPCCode,
      gc ∉ [GRPCCode.invalidArgument, GRPCCode.notFound, GRPCCode.alreadyExists,
        GRPCCode.unauthenticated, GRPCCode.permissionDenied] →
      FromGRPCStatus (.statusE gc m) = .appE CodeInternal m none (some (.statusE gc m))) := by
  constructor
  · intro c hc
    simp only [List.mem_cons, List.not_mem_nil, or_false] at hc
    rcases hc with rfl | rfl | rfl | rfl | rfl | rfl <;> rfl
  · intro gc hgc
    cases gc <;> first
      | rfl
      | (exfalso; apply hgc; simp)

/-- C6 witness: a Conflict error round-trips through the transport as
Conflict, and an unavailable transport status comes back as Internal with
its text preserved. -/
theorem C6_grpc_roundtrip_witness :
    FromGRPCStatus (GRPCStatus (.appE CodeConflict "dup" none none)) =
      .appE CodeConflict "dup" none (some (.statusE .alreadyExists "dup")) ∧
    FromGRPCStatus (.statusE .unavailable "connection refused") =
      .appE CodeInternal "connection refused" none
        (some (.statusE .unavailable "connection refused")) := by
  constructor
  · exact (C6_grpc_roundtrip "dup" none none).1 CodeConflict (by simp)
  · exact (C6_grpc_roundtrip "connection refused" none none).2 .unavailable (by decide)

/-- C7: Wrap keeps the wrapped AppError's kind and details, changing only the
message (which gains the given prefix) and chaining the original as cause;
the kind test Is answers identically on the wrapped and original error. -/
theorem C7_wrap_preserves (c m msg : String) (d : Option Details) (w : Option GoError) :
    Wrap (.appE c m d w) msg = .appE c (msg ++ ": " ++ m) d (some (.appE c m d w)) ∧
    Is (Wrap (.appE c m d w) msg) c = true ∧
    (∀ k : String, Is (Wrap (.appE c m d w) msg) k = Is (.appE c m d w) k) := by
  refine ⟨rfl, ?_, ?_⟩
  · simp [Is, Wrap, GoError.asApp]
  · intro k; rfl

/-- C10: Confirm and Cancel are unconditional on every order, whatever its
current status: they set the status to confirmed respectively cancelled,
refresh updatedAt, and leave id, userID, total and createdAt untouched. -/
theorem C10_confirm_cancel (o : Order) (now : Nat) :
    (o.Confirm now).status = .confirmed ∧ (o.Cancel now).status = .cancelled ∧
    (o.Confirm now).updatedAt = now ∧ (o.Cancel now).updatedAt = now ∧
    (o.Confirm now).id = o.id ∧ (o.Confirm now).userID = o.userID ∧
    (o.Confirm now).total = o.total ∧ (o.Confirm now).createdAt = o.createdAt ∧
    (o.Cancel now).id = o.id ∧ (o.Cancel now).userID = o.userID ∧
    (o.Cancel now).total = o.total ∧ (o.Cancel now).createdAt = o.createdAt :=
  ⟨rfl, rfl, rfl, rfl, rfl, rfl, rfl, rfl, rfl, rfl, rfl, rfl⟩

/-- C1 counterexample: the claim says a non-NotFound failure of GetUser is
returned wrapped as kind Internal. With a user client failing with a Conflict
taxonomy error, CreateOrder returns the wrapped error still of kind Conflict
(Wrap preserves the kind), not Internal. -/
theorem C1_counterexample :
    (createOrder envConflictClient 0 ⟨7, 50⟩).1 =
      .error (.appE CodeConflict "failed to validate user: user service conflict" none
        (some (NewConflict "user service conflict"))) ∧
    CodeConflict ≠ CodeInternal := by
  exact ⟨rfl, by decide⟩

/-- C1 (amended): with a lookup client configured whose GetUser fails, a
NotFound failure yields the Validation error carrying the user_id detail map,
and any other failure yields the error wrapped with message prefix
"failed to validate user", preserving its original kind (it becomes Internal
only when the failure is not a taxonomy error); in both cases the trace is
the lone GetUser call, so no Order is constructed, validated or persisted. -/
theorem C1_lookup_failure (uc : Option (Nat → Except GoError UserInfo))
    (rc : Order → Except GoError Order) (rg : Nat → Except GoError Order)
    (pb : Option (Order → Option GoError)) (now : Nat) (input : CreateOrderInput)
    (f : Nat → Except GoError UserInfo) (err : GoError)
    (hc : uc = some f) (he : f input.userID = .error err) :
    (Is err CodeNotFound = true →
      createOrder ⟨uc, rc, rg, pb⟩ now input =
        (.error (NewValidation "user not found" (some (.map [("user_id", .natV input.userID)]))),
         [Effect.getUser input.userID])) ∧
    (Is err CodeNotFound = false →
      createOrder ⟨uc, rc, rg, pb⟩ now input =
        (.error (Wrap err "failed to validate user"), [Effect.getUser input.userID])) ∧
    (∀ c m d w, err = .appE c m d w →
      Wrap err "failed to validate user" =
        .appE c ("failed to validate user" ++ ": " ++ m) d (some err)) ∧
    (err.asApp = none →
      Wrap err "failed to validate user" = NewInternal "failed to validate user" (some err)) := by
  subst hc
  refine ⟨?_, ?_, ?_, ?_⟩
  · intro hin
    simp [createOrder, he, hin, NewUserNotFoundError]
  · intro hin
    simp [createOrder, he, hin]
  · intro c m d w hw
    subst hw
    rfl
  · intro hnone
    unfold Wrap
    rw [hnone]

/-- C1 witness: the concrete Conflict-failing client exercises the amended
non-NotFound branch. -/
theorem C1_lookup_failure_witness :
    Is (NewConflict "user service conflict") CodeNotFound = false ∧
    createOrder ⟨some conflictClient, rcAssign, postgresGetByID testStoreEmpty, none⟩ 0 ⟨7, 50⟩ =
      (.error (Wrap (NewConflict "user service conflict") "failed to validate user"),
       [Effect.getUser 7]) := by
  refine ⟨by decide, ?_⟩
  exact (C1_lookup_failure (some conflictClient) rcAssign (postgresGetByID testStoreEmpty)
    none 0 ⟨7, 50⟩ conflictClient (NewConflict "user service conflict") rfl rfl).2.1 (by decide)

/-- C2 counterexample: for input (user 1, total -10) with the mock user
client configured, CreateOrder does fail with the Validation error and
persists nothing, but the trace is exactly the GetUser call: the remote
lookup is observable before validation, contrary to the claim that no call
to the lookup client occurs. -/
theorem C2_counterexample :
    (createOrder envMockClient 0 ⟨1, -10⟩).1 = .error ErrInvalidTotal ∧
    (createOrder envMockClient 0 ⟨1, -10⟩).2 = [Effect.getUser 1] := by
  constructor <;> rfl

/-- C2 (amended): for any input whose total fails the lower-bound validation
(with a nonzero user id), CreateOrder fails with the Validation error and
neither a repository Create nor an event publish occurs; however, when a
lookup client is configured, the remote GetUser call happens first, so the
trace is either empty (no client) or exactly that lookup. -/
theorem C2_invalid_total (uc : Option (Nat → Except GoError UserInfo))
    (rc : Order → Except GoError Order) (rg : Nat → Except GoError Order)
    (pb : Option (Order → Option GoError)) (now : Nat) (input : CreateOrderInput)
    (h0 : input.userID ≠ 0) (h1 : input.total ≤ 0)
    (h2 : uc = none ∨ ∃ f info, uc = some f ∧ f input.userID = .ok info) :
    (createOrder ⟨uc, rc, rg, pb⟩ now input).1 = .error ErrInvalidTotal ∧
    ((createOrder ⟨uc, rc, rg, pb⟩ now input).2 = [] ∨
      (createOrder ⟨uc, rc, rg, pb⟩ now input).2 = [Effect.getUser input.userID]) := by
  have hno := NewOrder_invalid_total now input.userID input.total h0 h1
  rcases h2 with rfl | ⟨f, info, rfl, hok⟩
  · constructor
    · simp [createOrder, createOrderCore, hno]
    · left
      simp [createOrder, createOrderCore, hno]
  · constructor
    · simp [createOrder, createOrderCore, hok, hno]
    · right
      simp [createOrder, createOrderCore, hok, hno]

/-- C2 witness: with no client configured, the invalid total fails with the
Validation error and an empty trace. -/
theorem C2_invalid_total_witness :
    (1 ≠ 0) ∧ ((-10 : Rat) ≤ 0) ∧
    (createOrder ⟨none, rcAssign, postgresGetByID testStoreEmpty, none⟩ 0 ⟨1, -10⟩).1 =
      .error ErrInvalidTotal := by
  refine ⟨by decide, by norm_num, ?_⟩
  exact (C2_invalid_total none rcAssign (postgresGetByID testStoreEmpty) none 0 ⟨1, -10⟩
    (by decide) (by norm_num) (Or.inl rfl)).1

/-- C8: the value CreateOrder returns never depends on the publisher, and
once the repository Create succeeds (after a successful or absent lookup),
CreateOrder returns the persisted order as success even though the publish
was attempted — with any publisher outcome, including failure. -/
theorem C8_publish_best_effort (uc : Option (Nat → Except GoError UserInfo))
    (rc : Order → Except GoError Order) (rg : Nat → Except GoError Order)
    (pub : Order → Option GoError) (now : Nat) (input : CreateOrderInput) :
    ((createOrder ⟨uc, rc, rg, some pub⟩ now input).1 =
      (createOrder ⟨uc, rc, rg, none⟩ now input).1) ∧
    (∀ order created,
      NewOrder now input.userID input.total = .ok order →
      rc order = .ok created →
      (uc = none ∨ ∃ f info, uc = some f ∧ f input.userID = .ok info) →
      (createOrder ⟨uc, rc, rg, some pub⟩ now input).1 = .ok created ∧
      Effect.publishOrderCreated created (pub created) ∈
        (createOrder ⟨uc, rc, rg, some pub⟩ now input).2) := by
  constructor
  · rcases uc with _ | f
    · cases hno : NewOrder now input.userID input.total with
      | error e => simp [createOrder, createOrderCore, hno]
      | ok order =>
        cases hrc : rc order with
        | error e => simp [createOrder, createOrderCore, hno, hrc]
        | ok created => simp [createOrder, createOrderCore, hno, hrc]
    · cases hf : f input.userID with
      | error err => simp [createOrder, hf]
      | ok info =>
        cases hno : NewOrder now input.userID input.total with
        | error e => simp [createOrder, createOrderCore, hf, hno]
        | ok order =>
          cases hrc : rc order with
          | error e => simp [createOrder, createOrderCore, hf, hno, hrc]
          | ok created => simp [createOrder, createOrderCore, hf, hno, hrc]
  · intro order created hno hrc hclient
    rcases hclient with rfl | ⟨f, info, rfl, hok⟩
    · constructor
      · simp [createOrder, createOrderCore, hno, hrc]
      · simp [createOrder, createOrderCore, hno, hrc]
    · constructor
      · simp [createOrder, createOrderCore, hok, hno, hrc]
      · simp [createOrder, createOrderCore, hok, hno, hrc]

/-- C8 witness: with an always-failing publisher and no lookup client, the
order persisted with id 1 is still returned as success. -/
theorem C8_publish_best_effort_witness :
    NewOrder 0 5 100 = .ok ⟨0, 5, 100, .pending, 0, 0⟩ ∧
    rcAssign ⟨0, 5, 100, .pending, 0, 0⟩ = .ok ⟨1, 5, 100, .pending, 0, 0⟩ ∧
    (createOrder ⟨none, rcAssign, postgresGetByID testStoreEmpty, some pubFail⟩ 0 ⟨5, 100⟩).1 =
      .ok ⟨1, 5, 100, .pending, 0, 0⟩ := by
  refine ⟨rfl, rfl, ?_⟩
  exact ((C8_publish_best_effort none rcAssign (postgresGetByID testStoreEmpty) pubFail 0
    ⟨5, 100⟩).2 ⟨0, 5, 100, .pending, 0, 0⟩ ⟨1, 5, 100, .pending, 0, 0⟩ rfl rfl (Or.inl rfl)).1

/-- C9: GetOrder is a direct passthrough to the repository GetByID, returning
its result unchanged; over the Postgres repository, an id with no stored row
fails with the NotFound error whose message reads
order with id (quoted id) not found. -/
theorem C9_get_order (env : OrdersEnv) (id : Nat) :
    getOrder env id = env.repoGetByID id ∧
    (∀ store : Nat → Option Order, store id = none →
      getOrder { env with repoGetByID := postgresGetByID store } id =
        .error (.appE CodeNotFound
          ("order with id " ++ squote ++ Nat.repr id ++ squote ++ " not found") none none)) ∧
    Is (NewOrderNotFound id) CodeNotFound = true := by
  have hpass : ∀ (env2 : OrdersEnv) (j : Nat), getOrder env2 j = env2.repoGetByID j := by
    intro env2 j
    unfold getOrder
    cases env2.repoGetByID j <;> rfl
  refine ⟨hpass env id, ?_, rfl⟩
  intro store hs
  rw [hpass]
  show postgresGetByID store id = _
  unfold postgresGetByID
  rw [hs]
  rfl

/-- C9 witness: Scenario D — fetching order 999 from an empty store fails
with the formatted NotFound error. -/
theorem C9_get_order_witness :
    getOrder { envNoClient with repoGetByID := postgresGetByID testStoreEmpty } 999 =
      .error (.appE CodeNotFound
        ("order with id " ++ squote ++ "999" ++ squote ++ " not found") none none) :=
  (C9_get_order envNoClient 999).2.1 testStoreEmpty rfl

end GoMicro
